import Mathlib

set_option autoImplicit false

namespace AutoShop

/-! Shallow embedding of the reservation core of the auto-shop booking
repository: the bookings table of the SQL schema with its unconditional
UNIQUE constraint on the timeslot column, the createBooking, getBooking and
cancelBooking operations of src/src/lib/api.ts, the create-booking Netlify
handler, and the timeslot-generation DO block of the schema migration. -/

/-- Booking lifecycle status, from the CHECK constraint on bookings.status in
the schema migration: pending, confirmed, cancelled, completed. -/
inductive BookingStatus
  | pending
  | confirmed
  | cancelled
  | completed
deriving DecidableEq, Repr

/-- Row of the bookings table (schema migration, CREATE TABLE bookings).
Identifiers and timeslot references are modelled as Nat, the cancel_token
UUID as a String. -/
structure Booking where
  id : Nat
  service_id : Nat
  staff_id : Nat
  timeslot_id : Nat
  customer_name : String
  customer_email : String
  customer_phone : Option String
  notes : Option String
  status : BookingStatus
  cancel_token : String
deriving DecidableEq, Repr

/-- State of the bookings table. nextId models the GENERATED ALWAYS AS
IDENTITY primary key sequence. -/
structure Store where
  bookings : List Booking
  nextId : Nat
deriving DecidableEq, Repr

/-- The empty bookings table, as created by the migration. -/
def Store.empty : Store := ⟨[], 1⟩

/-- Request body of POST create-booking, also the argument record of
createBooking in src/src/lib/api.ts. -/
structure BookingData where
  serviceId : Nat
  staffId : Nat
  timeslotId : Nat
  customerName : String
  customerEmail : String
  customerPhone : Option String
  notes : Option String
deriving DecidableEq, Repr

/-- The ApiError class of src/src/lib/api.ts: a message plus an HTTP-like
numeric status whose default value is 400. -/
structure ApiError where
  message : String
  status : Nat
deriving DecidableEq, Repr

/-- Models `throw new ApiError(error.message)` (src/src/lib/api.ts lines 19,
31, 44, 88, 159): an ApiError built with the default status 400. -/
def genericApiError (m : String) : ApiError := ⟨m, 400⟩

/-- Outcome of the Postgres insert into bookings. The table carries
UNIQUE(timeslot_id) (schema migration line 73), an unconditional constraint
over all rows regardless of status; a conflicting insert is rejected whole
with SQLSTATE 23505 and the table is left unchanged. -/
inductive InsertResult
  | ok (s : Store) (id : Nat) (cancel_token : String)
  | uniqueViolation
deriving DecidableEq, Repr

/-- Atomic constraint-backed insert into the bookings table. The inserted row
takes status confirmed (api.ts line 147), a fresh identity id, and the
DB-generated cancel token (gen_random_uuid, modelled by the freshToken
argument); the insert RETURNING clause hands id and cancel_token back. -/
def dbInsertBooking (s : Store) (d : BookingData) (freshToken : String) :
    InsertResult :=
  if s.bookings.any (fun b => b.timeslot_id == d.timeslotId) then
    .uniqueViolation
  else
    .ok ⟨s.bookings ++ [⟨s.nextId, d.serviceId, d.staffId, d.timeslotId,
          d.customerName, d.customerEmail, d.customerPhone, d.notes,
          .confirmed, freshToken⟩], s.nextId + 1⟩
      s.nextId freshToken

/-- Message of the ApiError thrown on SQLSTATE 23505
(src/src/lib/api.ts lines 153-158). -/
def slotTakenMessage : String :=
  "This time slot has already been booked. Please select another time."

/-- The ApiError thrown on a unique-constraint violation; the constructor is
called without a status argument, so the default 400 applies. -/
def slotTakenError : ApiError := ⟨slotTakenMessage, 400⟩

/-- Fallback path of createBooking (src/src/lib/api.ts lines 136-174): one
direct insert into bookings, with SQLSTATE 23505 translated to the
slot-taken ApiError; no availability pre-check is performed. -/
def createBookingFallback (s : Store) (d : BookingData) (freshToken : String) :
    Store × Except ApiError (Nat × String) :=
  match dbInsertBooking s d freshToken with
  | .ok s2 id tok => (s2, .ok (id, tok))
  | .uniqueViolation => (s, .error slotTakenError)

/-- Simplified model of the zod z.string().email() check used by
BookingSchema in the Netlify create-booking handler: exactly one at-sign,
nonempty user part, nonempty dotted domain part, no spaces. The concrete
inputs used below (a well-formed address and the string not-an-email) are
classified identically by zod and by this model. -/
def isValidEmail (e : String) : Bool :=
  let cs := e.data
  let dom := (cs.dropWhile (fun c => c ≠ '@')).tail
  cs.count '@' == 1 &&
    decide ((cs.takeWhile (fun c => c ≠ '@')).length > 0) &&
    decide (dom.length > 0) &&
    dom.contains '.' &&
    !cs.contains ' '

/-- Field named by a zod validation issue of BookingSchema
(Netlify create-booking handler, lines 23-31). -/
inductive FieldIssue
  | serviceId
  | staffId
  | timeslotId
  | customerName
  | customerEmail
  | notes
deriving DecidableEq, Repr

/-- Validation performed by BookingSchema.parse in the Netlify handler:
positive ids, name length between 2 and 100, valid email, notes at most 500
characters. Issues are collected per field, as zod reports them. -/
def validateBooking (d : BookingData) : List FieldIssue :=
  (if d.serviceId = 0 then [.serviceId] else []) ++
  (if d.staffId = 0 then [.staffId] else []) ++
  (if d.timeslotId = 0 then [.timeslotId] else []) ++
  (if d.customerName.length < 2 ∨ d.customerName.length > 100 then
    [.customerName] else []) ++
  (if isValidEmail d.customerEmail then [] else [.customerEmail]) ++
  (match d.notes with
   | some n => if n.length > 500 then [.notes] else []
   | none => [])

/-- Response of the Netlify create-booking handler: 200 with booking id and
cancel token, 400 with per-field zod issue details, or 500. -/
inductive HttpResponse
  | ok (bookingId : Nat) (cancelToken : String)
  | invalid (details : List FieldIssue)
  | serverError
deriving DecidableEq, Repr

/-- Netlify create-booking handler (src/unnamed/part_007, lines 245-308).
After validation it performs NO storage access at all: it returns a mock
success built from Math.random values (mockId, mockToken model the two
random draws). A zod failure becomes a 400 response carrying the issues. -/
def handlerCreateBooking (d : BookingData) (mockId : Nat) (mockToken : String) :
    HttpResponse :=
  match validateBooking d with
  | [] => .ok mockId mockToken
  | issues => .invalid issues

/-- createBooking of src/src/lib/api.ts (lines 103-175). When the Netlify
function is reachable and answers 200, its body is returned as-is and the
bookings table is never touched. Any non-ok response (including the 400 sent
for invalid input) raises, is caught, and triggers the fallback direct
insert, which performs no validation of its own. When the function is
unreachable the fallback runs directly. -/
def createBooking (netlifyReachable : Bool) (s : Store) (d : BookingData)
    (mockId : Nat) (mockToken : String) (freshToken : String) :
    Store × Except ApiError (Nat × String) :=
  if netlifyReachable then
    match handlerCreateBooking d mockId mockToken with
    | .ok id tok => (s, .ok (id, tok))
    | _ => createBookingFallback s d freshToken
  else
    createBookingFallback s d freshToken

/-- getBooking of src/src/lib/api.ts (lines 178-191): select the rows whose
id and cancel_token both match; .single() yields the row when exactly one
matches and an error otherwise, which the function maps to null. -/
def getBooking (s : Store) (bookingId : Nat) (cancelToken : String) :
    Option Booking :=
  match s.bookings.filter
      (fun b => b.id == bookingId && b.cancel_token == cancelToken) with
  | [b] => some b
  | _ => none

/-- Row-level effect of the cancelBooking UPDATE: set status to cancelled on
a row whose id and cancel_token both match the given pair, leave every other
row unchanged. -/
def cancelUpdate (bookingId : Nat) (cancelToken : String) (b : Booking) :
    Booking :=
  if b.id = bookingId ∧ b.cancel_token = cancelToken then
    { b with status := .cancelled }
  else b

/-- cancelBooking of src/src/lib/api.ts (lines 194-205): update status to
cancelled on every row whose id and cancel_token match, then return !error.
A supabase update that matches zero rows is not an error, so on a successful
storage round trip (the path modelled here) the function returns true
regardless of whether anything matched. -/
def cancelBooking (s : Store) (bookingId : Nat) (cancelToken : String) :
    Store × Bool :=
  (⟨s.bookings.map (cancelUpdate bookingId cancelToken), s.nextId⟩, true)

/-- Availability filter of getAvailableSlots (src/src/lib/api.ts lines
91-97): a slot is shown as available when it has no bookings or all of its
bookings are cancelled. -/
def slotAvailable (s : Store) (timeslotId : Nat) : Bool :=
  (s.bookings.filter (fun b => b.timeslot_id == timeslotId)).all
    (fun b => b.status == BookingStatus.cancelled)

/-- One mutation of the bookings table as performed by the repository code:
a createBooking call (in either deployment environment, with arbitrary
random draws and DB-generated token) or a cancelBooking call. These are the
only statements in the repository that write to bookings. -/
inductive Step : Store → Store → Prop
  | create (s : Store) (net : Bool) (d : BookingData) (mid : Nat)
      (mtok ftok : String) :
      Step s (createBooking net s d mid mtok ftok).1
  | cancel (s : Store) (i : Nat) (t : String) :
      Step s (cancelBooking s i t).1

/-- States of the bookings table reachable from the freshly migrated empty
table through the repository operations. -/
inductive Reachable : Store → Prop
  | init : Reachable Store.empty
  | step {s s2 : Store} : Reachable s → Step s s2 → Reachable s2

/-- Whether a status counts against the non-cancelled uniqueness property of
the spec: pending and confirmed do. -/
def BookingStatus.isActive : BookingStatus → Bool
  | .pending => true
  | .confirmed => true
  | .cancelled => false
  | .completed => false

/-- Number of bookings with status in the pending/confirmed set that
reference a given timeslot. -/
def activeOn (s : Store) (t : Nat) : Nat :=
  (s.bookings.filter (fun b => b.timeslot_id == t && b.status.isActive)).length

/-- Pairwise-distinct timeslot references across all rows of the bookings
table: the state enforced by the unconditional UNIQUE(timeslot_id)
constraint of the schema. -/
def UniqueTimeslots (s : Store) : Prop :=
  s.bookings.Pairwise (fun a b => a.timeslot_id ≠ b.timeslot_id)

/-! ### Concrete data used by the closed theorems -/

/-- A well-formed claim request for service 1, staff 1, timeslot 1. -/
def sampleData : BookingData :=
  ⟨1, 1, 1, "Alice", "alice@shop.example", none, none⟩

/-- The same request with the syntactically invalid email of the spec
example. -/
def badData : BookingData :=
  ⟨1, 1, 1, "Alice", "not-an-email", none, none⟩

/-- Table state after claiming timeslot 1 through the fallback insert, with
DB-generated cancel token tokA. -/
def sClaimed : Store := (createBookingFallback Store.empty sampleData "tokA").1

/-- sClaimed after the booking was cancelled through cancelBooking with the
matching credential. -/
def sCancelled : Store := (cancelBooking sClaimed 1 "tokA").1

/-- A booking sitting in the terminal completed status (reached out-of-band
by administrative action). -/
def completedBooking : Booking :=
  ⟨1, 1, 1, 1, "Alice", "alice@shop.example", none, none, .completed, "tokC"⟩

/-- Table state holding only completedBooking. -/
def sCompleted : Store := ⟨[completedBooking], 2⟩

/-! ### Timeslot generator (schema migration DO block, lines 144-175) -/

/-- Row of the timeslots table, which carries UNIQUE(staff_id, start_ts).
Instants are minutes; a day index d counts days from an epoch Sunday, so the
Postgres EXTRACT(DOW) of day d is d % 7. -/
structure Timeslot where
  staff_id : Nat
  start_ts : Nat
  end_ts : Nat
deriving DecidableEq, Repr

/-- Whether some row already occupies the (staff_id, start_ts) key. -/
def hasSlotKey (ts : List Timeslot) (sid st : Nat) : Bool :=
  ts.any (fun u => u.staff_id == sid && u.start_ts == st)

/-- INSERT INTO timeslots ... ON CONFLICT (staff_id, start_ts) DO NOTHING:
the row is appended unless its key is already present, in which case the
statement is a silent no-op, never an error. -/
def insertTimeslot (ts : List Timeslot) (t : Timeslot) : List Timeslot :=
  if hasSlotKey ts t.staff_id t.start_ts then ts else ts ++ [t]

/-- Slots generated for one staff member on one day: weekend days (DOW 0 and
6) are skipped; otherwise 30-minute slots starting at 9:00 (minute 540)
while the start stays below 17:00 (minute 1020) — 16 slots, each ending 30
minutes after its start. -/
def daySlots (sid d : Nat) : List Timeslot :=
  if d % 7 = 0 ∨ d % 7 = 6 then []
  else (List.range 16).map (fun k =>
    ⟨sid, d * 1440 + 540 + 30 * k, d * 1440 + 570 + 30 * k⟩)

/-- The generator DO block: for each active staff id and each day of the
range, insert every generated slot with conflict-skip semantics. -/
def generateTimeslots (staffIds days : List Nat) (ts : List Timeslot) :
    List Timeslot :=
  (staffIds.flatMap fun sid => days.flatMap fun d => daySlots sid d).foldl
    insertTimeslot ts

/-- Contiguous range of day indices, as iterated by FOR i IN 0..29 over
CURRENT_DATE + i in the DO block, generalised to any base and length. -/
def dayRange (base count : Nat) : List Nat :=
  (List.range count).map (fun i => base + i)

/-- No two timeslot rows share the (staff_id, start_ts) key. -/
def NoDupKeys (ts : List Timeslot) : Prop :=
  ts.Pairwise (fun a b => a.staff_id ≠ b.staff_id ∨ a.start_ts ≠ b.start_ts)

end AutoShop

namespace AutoShop

/-- The cancel UPDATE never changes the timeslot referenced by a row. -/
theorem cancelUpdate_timeslot_id (i : Nat) (t : String) (b : Booking) :
    (cancelUpdate i t b).timeslot_id = b.timeslot_id := by
  unfold cancelUpdate
  split <;> rfl

/-- The fallback insert preserves pairwise-distinct timeslot references. -/
theorem uniqueTimeslots_fallback (s : Store) (d : BookingData) (ftok : String)
    (h : UniqueTimeslots s) :
    UniqueTimeslots (createBookingFallback s d ftok).1 := by
  cases hc : s.bookings.any (fun b => b.timeslot_id == d.timeslotId) with
  | true =>
    simpa [createBookingFallback, dbInsertBooking, hc] using h
  | false =>
    simp only [createBookingFallback, dbInsertBooking, hc]
    unfold UniqueTimeslots
    simp only [Bool.false_eq_true, if_false]
    rw [List.pairwise_append]
    refine ⟨h, List.pairwise_singleton _ _, ?_⟩
    intro a ha b hb
    simp only [List.mem_singleton] at hb
    subst hb
    have := List.any_eq_false.mp hc a ha
    simpa using this

/-- cancelBooking preserves pairwise-distinct timeslot references. -/
theorem uniqueTimeslots_cancel (s : Store) (i : Nat) (t : String)
    (h : UniqueTimeslots s) : UniqueTimeslots (cancelBooking s i t).1 := by
  unfold UniqueTimeslots cancelBooking
  simp only
  rw [List.pairwise_map]
  refine h.imp ?_
  intro a b hab
  simpa [cancelUpdate_timeslot_id] using hab

/-- Every repository mutation of the bookings table preserves the pairwise
distinctness of timeslot references. -/
theorem uniqueTimeslots_step {s s2 : Store} (h : UniqueTimeslots s)
    (hs : Step s s2) : UniqueTimeslots s2 := by
  cases hs with
  | create net d mid mtok ftok =>
    unfold createBooking
    cases net with
    | false => simpa using uniqueTimeslots_fallback s d ftok h
    | true =>
      cases hr : handlerCreateBooking d mid mtok with
      | ok id tok => simpa [hr] using h
      | invalid issues => simpa [hr] using uniqueTimeslots_fallback s d ftok h
      | serverError => simpa [hr] using uniqueTimeslots_fallback s d ftok h
  | cancel i t => exact uniqueTimeslots_cancel s i t h

/-- A list whose elements carry pairwise-distinct timeslot references has at
most one element referencing any given timeslot with active status. -/
theorem activeOn_le_one (s : Store) (h : UniqueTimeslots s) (t : Nat) :
    activeOn s t ≤ 1 := by
  unfold activeOn
  have hp : (s.bookings.filter
      (fun b => b.timeslot_id == t && b.status.isActive)).Pairwise
      (fun a b => a.timeslot_id ≠ b.timeslot_id) :=
    List.Pairwise.sublist (List.filter_sublist _) h
  cases hf : s.bookings.filter (fun b => b.timeslot_id == t && b.status.isActive) with
  | nil => simp [hf]
  | cons a tl =>
    cases tl with
    | nil => simp [hf]
    | cons b tl2 =>
      exfalso
      rw [hf] at hp
      have hR := (List.pairwise_cons.mp hp).1 b (List.mem_cons_self _ _)
      have ha : a ∈ s.bookings.filter
          (fun x => x.timeslot_id == t && x.status.isActive) := by
        rw [hf]; exact List.mem_cons_self _ _
      have hb : b ∈ s.bookings.filter
          (fun x => x.timeslot_id == t && x.status.isActive) := by
        rw [hf]; exact List.mem_cons_of_mem _ (List.mem_cons_self _ _)
      have pa := (List.mem_filter.mp ha).2
      have pb := (List.mem_filter.mp hb).2
      simp only [Bool.and_eq_true, beq_iff_eq] at pa pb
      exact hR (pa.1.trans pb.1.symm)


/-- C1: in every state of the bookings table reachable through the repository
operations, each timeslot is referenced by at most one booking whose status
is pending or confirmed; and the claim operation maintains this through one
atomic constraint-backed insert: when some booking already references the
requested timeslot, the single insert is rejected whole with the slot-taken
error and the table is left unchanged, while a successful insert entails
that no booking referenced the timeslot beforehand — there is no separate
availability check followed by an insert. -/
theorem claim_uniqueness_invariant (s : Store) (h : Reachable s) :
    (∀ t, activeOn s t ≤ 1) ∧
    (∀ d ftok, (∃ b ∈ s.bookings, b.timeslot_id = d.timeslotId) →
      createBookingFallback s d ftok = (s, Except.error slotTakenError)) ∧
    (∀ d ftok s2 r, createBookingFallback s d ftok = (s2, Except.ok r) →
      ∀ b ∈ s.bookings, b.timeslot_id ≠ d.timeslotId) := by
  have hu : UniqueTimeslots s := by
    induction h with
    | init => exact List.Pairwise.nil
    | step h hs ih => exact uniqueTimeslots_step ih hs
  refine ⟨fun t => activeOn_le_one s hu t, ?_, ?_⟩
  · rintro d ftok ⟨b, hb, hbt⟩
    have hc : s.bookings.any (fun x => x.timeslot_id == d.timeslotId) = true :=
      List.any_eq_true.mpr ⟨b, hb, by simp [hbt]⟩
    simp [createBookingFallback, dbInsertBooking, hc]
  · intro d ftok s2 r hok b hb
    cases hc : s.bookings.any (fun x => x.timeslot_id == d.timeslotId) with
    | true => simp [createBookingFallback, dbInsertBooking, hc] at hok
    | false =>
      have := List.any_eq_false.mp hc b hb
      simpa using this

/-- Witness for C1: the invariant evaluated on a concrete reachable state,
the store obtained by one fallback claim of timeslot 1. -/
theorem claim_uniqueness_invariant_witness :
    activeOn (createBooking false Store.empty sampleData 0 "mockTok" "tokA").1 1 ≤ 1 :=
  (claim_uniqueness_invariant _
    (Reachable.step Reachable.init
      (Step.create Store.empty false sampleData 0 "mockTok" "tokA"))).1 1

/-- C2 fails on the code: after the booking on timeslot 1 is cancelled (its
status is cancelled and the availability filter reports the slot as free), a
new claim of timeslot 1 is still rejected by the unconditional
UNIQUE(timeslot_id) constraint, because the cancelled row keeps referencing
the timeslot. -/
theorem reclaim_after_cancel_rejected :
    sCancelled.bookings.map (fun b => b.status) = [BookingStatus.cancelled] ∧
    slotAvailable sCancelled 1 = true ∧
    createBookingFallback sCancelled sampleData "tokB"
      = (sCancelled, Except.error slotTakenError) := ⟨rfl, rfl, rfl⟩

/-- C3 fails on the code: with a credential that matches no booking (lookup
returns none), cancelBooking still reports success, because a supabase
update matching zero rows is not an error; no NotFound outcome exists in the
release path. -/
theorem release_mismatch_reports_success :
    getBooking sClaimed 1 "wrongToken" = none ∧
    cancelBooking sClaimed 1 "wrongToken" = (sClaimed, true) := ⟨rfl, rfl⟩

/-- Lookup returns none whenever no booking matches both identifier and
credential. -/
theorem getBooking_none_of_no_match (s : Store) (i : Nat) (t : String)
    (h : ∀ b ∈ s.bookings, ¬(b.id = i ∧ b.cancel_token = t)) :
    getBooking s i t = none := by
  unfold getBooking
  have hnil : s.bookings.filter (fun b => b.id == i && b.cancel_token == t) = [] := by
    rw [List.filter_eq_nil_iff]
    intro a ha
    simpa using h a ha
  rw [hnil]

/-- A booking returned by lookup is stored and matches both identifier and
credential exactly. -/
theorem getBooking_some_sound (s : Store) (i : Nat) (t : String) (b : Booking)
    (h : getBooking s i t = some b) :
    b ∈ s.bookings ∧ b.id = i ∧ b.cancel_token = t := by
  unfold getBooking at h
  cases hf : s.bookings.filter (fun x => x.id == i && x.cancel_token == t) with
  | nil => rw [hf] at h; cases h
  | cons a tl =>
    cases tl with
    | nil =>
      rw [hf] at h
      have hab : a = b := Option.some.inj h
      subst hab
      have hmem : a ∈ s.bookings.filter (fun x => x.id == i && x.cancel_token == t) := by
        rw [hf]; exact List.mem_cons_self _ _
      have := List.mem_filter.mp hmem
      simp only [Bool.and_eq_true, beq_iff_eq] at this
      exact ⟨this.1, this.2.1, this.2.2⟩
    | cons c tl2 => rw [hf] at h; cases h

/-- C4: lookup returns the identical not-found result (none) for every
identifier/credential pair that matches no booking — wrong credential on an
existing identifier and arbitrary credential on a nonexistent identifier are
indistinguishable — and it returns a booking exactly when both identifier
and credential match a stored row. -/
theorem lookup_no_enumeration (s : Store) (i1 i2 : Nat) (t1 t2 : String)
    (h1 : ∀ b ∈ s.bookings, ¬(b.id = i1 ∧ b.cancel_token = t1))
    (h2 : ∀ b ∈ s.bookings, ¬(b.id = i2 ∧ b.cancel_token = t2)) :
    getBooking s i1 t1 = none ∧
    getBooking s i1 t1 = getBooking s i2 t2 ∧
    (∀ i t b, getBooking s i t = some b →
      b ∈ s.bookings ∧ b.id = i ∧ b.cancel_token = t) := by
  have e1 := getBooking_none_of_no_match s i1 t1 h1
  have e2 := getBooking_none_of_no_match s i2 t2 h2
  exact ⟨e1, e1.trans e2.symm, fun i t b h => getBooking_some_sound s i t b h⟩

/-- Witness for C4 on the concrete one-booking store: wrong credential on
the existing id 1 and the right credential on the nonexistent id 99 give the
same none. -/
theorem lookup_no_enumeration_witness :
    getBooking sClaimed 1 "wrongToken2" = none ∧
    getBooking sClaimed 1 "wrongToken2" = getBooking sClaimed 99 "tokA" ∧
    (∀ i t b, getBooking sClaimed i t = some b →
      b ∈ sClaimed.bookings ∧ b.id = i ∧ b.cancel_token = t) :=
  lookup_no_enumeration sClaimed 1 99 "wrongToken2" "tokA"
    (by decide) (by decide)

/-- Applying the cancel UPDATE twice with the same pair equals applying it
once. -/
theorem cancelUpdate_idem (i : Nat) (t : String) (b : Booking) :
    cancelUpdate i t (cancelUpdate i t b) = cancelUpdate i t b := by
  unfold cancelUpdate
  by_cases h : b.id = i ∧ b.cancel_token = t
  · simp [h]
  · simp [h]

/-- C5: release is idempotent in effect, and the repeated call reports the
same success: cancelling with the same pair a second time leaves the table
exactly as a single cancellation left it and returns true again. -/
theorem release_idempotent (s : Store) (i : Nat) (t : String) :
    cancelBooking (cancelBooking s i t).1 i t = ((cancelBooking s i t).1, true) := by
  simp only [cancelBooking, Prod.mk.injEq, Store.mk.injEq, and_true, List.map_map]
  exact List.map_congr_left (fun b _ => cancelUpdate_idem i t b)

/-- C6 fails on the code: release, given the matching credential, moves a
booking out of the terminal completed status back to cancelled, because the
UPDATE filters only on id and cancel_token, never on the current status. -/
theorem release_escapes_completed :
    completedBooking.status = BookingStatus.completed ∧
    (cancelBooking sCompleted 1 "tokC").1.bookings
      = [{ completedBooking with status := BookingStatus.cancelled }] := ⟨rfl, rfl⟩

/-- C7 fails on the code: when the Netlify function is reachable, a valid
claim request receives a success response carrying the mock identifiers the
handler draws at random, while the bookings table is never written — the
returned bookingId and cancelToken are backed by no durable commit. -/
theorem claim_success_without_commit :
    createBooking true Store.empty sampleData 4242 "mockTok" "freshTok"
      = (Store.empty, Except.ok (4242, "mockTok")) ∧
    Store.empty.bookings = [] := ⟨rfl, rfl⟩

/-- C8 counterexample: the slot-conflict failure carries numeric status 400
(the ApiError default, no status argument is passed at the throw site),
exactly the status of every generically constructed ApiError, so the
condition is not distinguishable by status/code. -/
theorem slot_conflict_status_counterexample :
    (createBookingFallback sClaimed sampleData "tokB").2
      = Except.error slotTakenError ∧
    slotTakenError.status = 400 ∧
    (genericApiError "storage unreachable").status = 400 := ⟨rfl, rfl, rfl⟩

/-- C8 amended: on a uniqueness rejection the operation fails with the fixed
slot-taken ApiError, recognisable by its message text; its numeric status is
400, identical to the status of every generic ApiError, so only the message
distinguishes the condition. -/
theorem slot_conflict_error_shape (s : Store) (d : BookingData) (ftok : String)
    (h : ∃ b ∈ s.bookings, b.timeslot_id = d.timeslotId) :
    (createBookingFallback s d ftok).2 = Except.error slotTakenError ∧
    slotTakenError.message = slotTakenMessage ∧
    (∀ m, (genericApiError m).status = slotTakenError.status) := by
  obtain ⟨b, hb, hbt⟩ := h
  have hc : s.bookings.any (fun x => x.timeslot_id == d.timeslotId) = true :=
    List.any_eq_true.mpr ⟨b, hb, by simp [hbt]⟩
  refine ⟨?_, rfl, fun m => rfl⟩
  simp [createBookingFallback, dbInsertBooking, hc]

/-- Witness for the amended C8 at the concrete occupied store. -/
theorem slot_conflict_error_shape_witness :
    (createBookingFallback sClaimed sampleData "tokB").2
      = Except.error slotTakenError ∧
    slotTakenError.message = slotTakenMessage ∧
    (∀ m, (genericApiError m).status = slotTakenError.status) :=
  slot_conflict_error_shape sClaimed sampleData "tokB" (by decide)

/-- C9 fails on the code: the handler rejects the invalid email with a
per-field issue naming customerEmail, but createBooking treats the resulting
non-ok response as unavailability of the function and falls back to the
direct insert, which validates nothing: the booking with the invalid email
is committed and the call reports success. -/
theorem invalid_email_committed_via_fallback :
    handlerCreateBooking badData 7 "mockTok"
      = HttpResponse.invalid [FieldIssue.customerEmail] ∧
    createBooking true Store.empty badData 7 "mockTok" "freshTok"
      = (⟨[⟨1, 1, 1, 1, "Alice", "not-an-email", none, none,
            BookingStatus.confirmed, "freshTok"⟩], 2⟩,
         Except.ok (1, "freshTok")) := ⟨by decide, rfl⟩


/-- Key membership after a conflict-skipping insert: the inserted key is
added, every other key is untouched. -/
theorem hasSlotKey_insertTimeslot (ts : List Timeslot) (t : Timeslot)
    (sid st : Nat) :
    hasSlotKey (insertTimeslot ts t) sid st
      = (hasSlotKey ts sid st || (t.staff_id == sid && t.start_ts == st)) := by
  unfold insertTimeslot
  cases hc : hasSlotKey ts t.staff_id t.start_ts with
  | false => simp [hasSlotKey, List.any_append]
  | true =>
    simp only [if_pos rfl]
    cases hm : (t.staff_id == sid && t.start_ts == st) with
    | false => simp
    | true =>
      simp only [Bool.and_eq_true, beq_iff_eq] at hm
      rw [hm.1, hm.2] at hc
      simp [hc]

/-- Key membership after folding conflict-skipping inserts over a pending
list. -/
theorem hasSlotKey_foldl (L : List Timeslot) (ts : List Timeslot)
    (sid st : Nat) :
    hasSlotKey (L.foldl insertTimeslot ts) sid st
      = (hasSlotKey ts sid st
          || L.any (fun u => u.staff_id == sid && u.start_ts == st)) := by
  induction L generalizing ts with
  | nil => simp
  | cons a L ih =>
    simp only [List.foldl_cons, List.any_cons]
    rw [ih, hasSlotKey_insertTimeslot, Bool.or_assoc]

/-- Folding inserts whose keys are all already present changes nothing. -/
theorem foldl_insertTimeslot_eq_self (L : List Timeslot) (ts : List Timeslot)
    (h : ∀ u ∈ L, hasSlotKey ts u.staff_id u.start_ts = true) :
    L.foldl insertTimeslot ts = ts := by
  induction L with
  | nil => rfl
  | cons a L ih =>
    have ha : insertTimeslot ts a = ts := by
      unfold insertTimeslot
      rw [h a (List.mem_cons_self _ _)]
      simp
    simp only [List.foldl_cons, ha]
    exact ih (fun u hu => h u (List.mem_cons_of_mem _ hu))

/-- Conflict-skipping insertion preserves key distinctness. -/
theorem noDupKeys_insertTimeslot (ts : List Timeslot) (t : Timeslot)
    (h : NoDupKeys ts) : NoDupKeys (insertTimeslot ts t) := by
  unfold insertTimeslot
  cases hc : hasSlotKey ts t.staff_id t.start_ts with
  | true => simpa using h
  | false =>
    simp only [Bool.false_eq_true, if_false]
    unfold NoDupKeys
    rw [List.pairwise_append]
    refine ⟨h, List.pairwise_singleton _ _, ?_⟩
    intro a ha b hb
    simp only [List.mem_singleton] at hb
    subst hb
    have := List.any_eq_false.mp hc a ha
    simp only [Bool.and_eq_true, beq_iff_eq, not_and] at this
    by_cases he : a.staff_id = b.staff_id
    · exact Or.inr (this he)
    · exact Or.inl he

/-- Folding conflict-skipping inserts preserves key distinctness. -/
theorem noDupKeys_foldl (L : List Timeslot) (ts : List Timeslot)
    (h : NoDupKeys ts) : NoDupKeys (L.foldl insertTimeslot ts) := by
  induction L generalizing ts with
  | nil => exact h
  | cons a L ih => exact ih _ (noDupKeys_insertTimeslot ts a h)

/-- Reassociation of a fourfold Bool disjunction. -/
theorem or_shuffle (a b c d : Bool) :
    ((a || b) || (c || d)) = ((a || c) || (b || d)) := by
  cases a <;> cases b <;> cases c <;> cases d <;> rfl

/-- The pending list of a generator run over concatenated day ranges keeps
the same keys as the two pending lists of successive runs. -/
theorem any_pending_append (ids days1 days2 : List Nat)
    (p : Timeslot → Bool) :
    ((ids.flatMap fun sid => (days1 ++ days2).flatMap fun d => daySlots sid d).any p)
      = ((ids.flatMap fun sid => days1.flatMap fun d => daySlots sid d).any p
          || (ids.flatMap fun sid => days2.flatMap fun d => daySlots sid d).any p) := by
  induction ids with
  | nil => rfl
  | cons i ids ih =>
    simp only [List.flatMap_cons, List.any_append]
    rw [ih, List.flatMap_append, List.any_append]
    exact or_shuffle _ _ _ _

/-- Whether some pending slot of a generator run matches a key depends only
on which days the day list contains. -/
theorem any_pending_mem_congr (ids days days2 : List Nat)
    (hmem : ∀ d, d ∈ days ↔ d ∈ days2) (p : Timeslot → Bool) :
    ((ids.flatMap fun sid => days.flatMap fun d => daySlots sid d).any p)
      = ((ids.flatMap fun sid => days2.flatMap fun d => daySlots sid d).any p) := by
  cases h : (ids.flatMap fun sid => days2.flatMap fun d => daySlots sid d).any p with
  | true =>
    obtain ⟨u, hu, hp⟩ := List.any_eq_true.mp h
    obtain ⟨sid, hsid, hu⟩ := List.mem_flatMap.mp hu
    obtain ⟨d, hd, hu⟩ := List.mem_flatMap.mp hu
    exact List.any_eq_true.mpr
      ⟨u, List.mem_flatMap.mpr ⟨sid, hsid,
        List.mem_flatMap.mpr ⟨d, (hmem d).mpr hd, hu⟩⟩, hp⟩
  | false =>
    rw [Bool.eq_false_iff]
    intro hcon
    obtain ⟨u, hu, hp⟩ := List.any_eq_true.mp hcon
    obtain ⟨sid, hsid, hu⟩ := List.mem_flatMap.mp hu
    obtain ⟨d, hd, hu⟩ := List.mem_flatMap.mp hu
    have : (ids.flatMap fun sid => days2.flatMap fun d => daySlots sid d).any p = true :=
      List.any_eq_true.mpr
        ⟨u, List.mem_flatMap.mpr ⟨sid, hsid,
          List.mem_flatMap.mpr ⟨d, (hmem d).mp hd, hu⟩⟩, hp⟩
    rw [h] at this
    cases this

/-- C10: the timeslot generator is idempotent. Re-running it over the same
day range reproduces the same table; two runs over any two (possibly
overlapping) day ranges leave no duplicate (staff, start) rows; the keys
present after the two runs are exactly those of a single run over the
concatenation of the two ranges; and the outcome depends only on which days
a range contains, so any list realising the union of the ranges yields the
same keys. Conflicting creation attempts are skipped by insertTimeslot, a
total function with no error outcome. -/
theorem generator_idempotent (ids : List Nat) (b1 c1 b2 c2 : Nat) :
    (∀ days ts, generateTimeslots ids days (generateTimeslots ids days ts)
        = generateTimeslots ids days ts) ∧
    NoDupKeys (generateTimeslots ids (dayRange b2 c2)
        (generateTimeslots ids (dayRange b1 c1) [])) ∧
    (∀ sid st, hasSlotKey (generateTimeslots ids (dayRange b2 c2)
          (generateTimeslots ids (dayRange b1 c1) [])) sid st
        = hasSlotKey (generateTimeslots ids (dayRange b1 c1 ++ dayRange b2 c2) []) sid st) ∧
    (∀ days days2, (∀ d, d ∈ days ↔ d ∈ days2) →
      ∀ sid st, hasSlotKey (generateTimeslots ids days []) sid st
        = hasSlotKey (generateTimeslots ids days2 []) sid st) := by
  refine ⟨?_, ?_, ?_, ?_⟩
  · intro days ts
    unfold generateTimeslots
    apply foldl_insertTimeslot_eq_self
    intro u hu
    rw [hasSlotKey_foldl]
    have : (ids.flatMap fun sid => days.flatMap fun d => daySlots sid d).any
        (fun v => v.staff_id == u.staff_id && v.start_ts == u.start_ts) = true :=
      List.any_eq_true.mpr ⟨u, hu, by simp⟩
    rw [this]
    simp
  · exact noDupKeys_foldl _ _ (noDupKeys_foldl _ _ List.Pairwise.nil)
  · intro sid st
    unfold generateTimeslots
    rw [hasSlotKey_foldl, hasSlotKey_foldl, hasSlotKey_foldl]
    rw [any_pending_append]
    simp [Bool.or_assoc]
  · intro days days2 hmem sid st
    unfold generateTimeslots
    rw [hasSlotKey_foldl, hasSlotKey_foldl]
    rw [any_pending_mem_congr ids days days2 hmem]

/-- Witness for C10: re-running the generator for one staff member over the
concrete three-day range 0..2 reproduces the same table. -/
theorem generator_idempotent_witness :
    generateTimeslots [1] (dayRange 0 3) (generateTimeslots [1] (dayRange 0 3) [])
      = generateTimeslots [1] (dayRange 0 3) [] :=
  (generator_idempotent [1] 0 3 0 3).1 (dayRange 0 3) []

end AutoShop
